import Mathlib

/-!
Verification of the FBFT validator message handlers of `consensus/validator.go`
(repository `peekpi/harmony`).

The Go source is shallowly embedded: each handler becomes a pure function on an
explicit `World` (consensus state + FBFT log + commit-signature store + the
list of broadcast messages), and every external collaborator (parser, quorum
decider, BLS verification, block verifier, catch-up, ...) is a field of an
`Env` record, so that the handlers' own control flow — the code under
verification — is fully explicit.  Machine integers (`uint64`) are `Nat` with
explicit `% 2 ^ 64` where Go overflow matters (the `blockNum - 1` stale gate).
-/

namespace Harmony

/-- A byte value (Go `byte`); we use `Nat` and only ever inspect low bits. -/
abbrev Byte := Nat

/-- A 32-byte block hash (`common.Hash`), kept as its byte list. -/
abbrev Hash := List Byte

/-- A serialized BLS aggregate signature (`bls_core.Sign`), kept as bytes. -/
abbrev Sig := List Byte

/-- An opaque raw network message (`*msg_pb.Message`). -/
abbrev RawMsg := Nat

/-- An opaque constructed network message (`*NetworkMessage`). -/
abbrev NetMsg := Nat

/-- An opaque BLS private key wrapper (`*bls.PrivateKeyWrapper`). -/
abbrev Key := Nat

/-- `bls.BLSSignatureSizeInBytes` = 96. -/
def blsSignatureSizeInBytes : Nat := 96

/-- The all-zero `[32]byte{}` hash compared against in `onPrepared`. -/
def emptyHash : Hash := List.replicate 32 0

/-- Consensus operating mode (`Normal/ViewChanging/Listening/Syncing`). -/
inductive Mode where
  | Normal
  | ViewChanging
  | Listening
  | Syncing
deriving DecidableEq

/-- FBFT phase (`FBFTAnnounce/FBFTPrepare/FBFTCommit`). -/
inductive FBFTPhase where
  | Announce
  | Prepare
  | Commit
deriving DecidableEq

/-- The consensus message types used by the handlers under verification. -/
inductive MessageType where
  | ANNOUNCE
  | PREPARE
  | PREPARED
  | COMMIT
  | COMMITTED
deriving DecidableEq

/-- Modelled from the spec: the participation bitmap (`bls_cosi.Mask` from
`crypto/bls`, which is not under `src/`).  Per the spec's data model a
QuorumMask is "a bitmap over committee members indicating which signers'
signatures are aggregated; supports enabled-count and byte-level overwrite".
`publicsCount` is the committee size (`len(m.Publics)`), `bitmap` the byte
array. -/
structure Mask where
  publicsCount : Nat
  bitmap : List Byte
deriving DecidableEq

/-- Modelled from the spec: `Mask.CountEnabled` counts, for each committee
index `i < publicsCount`, whether bit `i & 7` of byte `i >> 3` is set. -/
def Mask.CountEnabled (m : Mask) : Nat :=
  (List.range m.publicsCount).countP (fun i => (m.bitmap.getD (i / 8) 0).testBit (i % 8))

/-- Modelled from the spec: `Mask.SetMask` is the byte-level overwrite of the
bitmap; it refuses (leaving the mask unchanged, as the Go method returns an
error without mutating) when the byte lengths mismatch. -/
def Mask.SetMask (m : Mask) (b : List Byte) : Mask :=
  if b.length = m.bitmap.length then { m with bitmap := b } else m

/-- A parsed consensus message (`*FBFTMessage`). -/
structure FBFTMessage where
  viewID : Nat
  blockNum : Nat
  blockHash : Hash
  payload : List Byte
  block : List Byte
deriving DecidableEq

/-- The fields of a candidate block (`*types.Block`) that the handlers read. -/
structure Block where
  numberU64 : Nat
  epoch : Nat
  headerViewID : Nat
  hash : Hash
deriving DecidableEq

/-- The lock-guarded mutable consensus state (the fields of `Consensus` that
`validator.go` reads or writes).  Timers are modelled by their active flag;
the `BlockNumLowChan` single-slot sync channel by its occupancy bit
`syncPending`. -/
structure ConsensusState where
  blockNum : Nat
  blockHash : Hash
  phase : FBFTPhase
  mode : Mode
  aggregatedPrepareSig : Option Sig
  prepareBitmap : Option Mask
  aggregatedCommitSig : Option Sig
  commitBitmap : Option Mask
  block : List Byte
  syncPending : Bool
  timeoutConsensus : Bool
  timeoutViewChange : Bool
  timeoutBootstrap : Bool
  aggregateSig : Bool
  priKey : List Key
deriving DecidableEq

/-- The whole observable world a handler acts on: the consensus state, the
FBFT log (messages, blocks, verified marks), the chain's commit-signature
store (`ReadCommitSig`/`WriteCommitSig`), the multicast messages handed to the
transport, and a counter of `spinUpStateSync` invocations (trace
instrumentation used to state trigger-count properties; not Go state). -/
structure World where
  state : ConsensusState
  logMsgs : List FBFTMessage
  logBlocks : List Block
  verified : List Hash
  store : List (Nat × List Byte)
  sent : List NetMsg
  spinUpCalls : Nat
deriving DecidableEq

/-- External collaborators, per the spec's §6 interface contracts.  Each field
stands for a function outside `src/consensus/validator.go`; `none`/`false`
encode the Go error returns. -/
structure Env where
  parseFBFT : RawMsg → Option FBFTMessage
  onAnnounceSanityChecks : FBFTMessage → Bool
  checkViewID : ConsensusState → FBFTMessage → Bool
  publicsCount : Nat
  sigDeserializeOk : List Byte → Bool
  isQuorumAchievedByMask : Mask → Bool
  verifyHash : Sig → Mask → List Byte → Bool
  decodeBlock : List Byte → Option Block
  onPreparedSanityChecks : Block → FBFTMessage → Bool
  blockVerifier : Option (Block → Bool)
  isValidatorInCommittee : Key → Bool
  construct : MessageType → List Byte → List Key → Option NetMsg
  sendOk : NetMsg → Bool
  constructCommitPayload : Block → List Byte
  tryCatchup : ConsensusState → ConsensusState

/-- Modelled from the spec: `ReadSignatureBitmapPayload` (in `consensus.go`,
not under `src/`).  Per the spec's wire format, the payload is a fixed-size
aggregate signature followed by a bitmap "whose length equals the committee
size in bytes (rounded up)"; extraction fails when the payload is too short,
the signature does not deserialize, or the bitmap length is wrong for the
committee. -/
def maskByteLen (n : Nat) : Nat := (n + 7) / 8

def readSignatureBitmapPayload (e : Env) (recvPayload : List Byte) (offset : Nat) :
    Option (Sig × Mask) :=
  if offset + blsSignatureSizeInBytes > recvPayload.length then none
  else if e.sigDeserializeOk ((recvPayload.drop offset).take blsSignatureSizeInBytes)
      ∧ (recvPayload.drop (offset + blsSignatureSizeInBytes)).length
          = maskByteLen e.publicsCount then
    some ((recvPayload.drop offset).take blsSignatureSizeInBytes,
      { publicsCount := e.publicsCount
        bitmap := recvPayload.drop (offset + blsSignatureSizeInBytes) })
  else none

/-- `Blockchain.ReadCommitSig(blockNum)`: the store lookup; a missing entry is
the Go error return. -/
def readCommitSig : List (Nat × List Byte) → Nat → Option (List Byte)
  | [], _ => none
  | (k, v) :: rest, bn => if k = bn then some v else readCommitSig rest bn

/-- `Blockchain.WriteCommitSig(blockNum, payload)`: overwriting store update. -/
def writeCommitSig (store : List (Nat × List Byte)) (bn : Nat) (p : List Byte) :
    List (Nat × List Byte) :=
  (bn, p) :: store

/-- `FBFTLog.GetBlockByHash`. -/
def getBlockByHash : List Block → Hash → Option Block
  | [], _ => none
  | b :: rest, h => if b.hash = h then some b else getBlockByHash rest h

/-- `FBFTLog.AddMessage`. -/
def addMessage (w : World) (m : FBFTMessage) : World :=
  { w with logMsgs := w.logMsgs ++ [m] }

/-- `spinUpStateSync` (validator.go:377-386): a non-blocking send on the
single-slot `BlockNumLowChan`; only when the send succeeds (slot free) does it
set the mode to `Syncing` and stop every round timer. -/
def spinUpStateSync (st : ConsensusState) : ConsensusState :=
  if st.syncPending then st
  else
    { st with
      syncPending := true
      mode := Mode.Syncing
      timeoutConsensus := false
      timeoutViewChange := false
      timeoutBootstrap := false }

/-- `spinUpStateSync` on the world, also bumping the invocation counter. -/
def spinUpW (w : World) : World :=
  { w with state := spinUpStateSync w.state, spinUpCalls := w.spinUpCalls + 1 }

/-- `getPriKeysInCommittee` (validator.go:317-326). -/
def getPriKeysInCommittee (e : Env) (st : ConsensusState) : List Key :=
  st.priKey.filter e.isValidatorInCommittee

/-- `constructP2pMessages` (validator.go:328-358): one jointly signed message
when `AggregateSig` is set (empty on construction failure), else one message
per key, skipping keys whose construction fails. -/
def constructP2pMessages (e : Env) (aggregateSig : Bool) (msgType : MessageType)
    (payloadForSign : List Byte) (priKeys : List Key) : List NetMsg :=
  if aggregateSig then
    match e.construct msgType payloadForSign priKeys with
    | none => []
    | some m => [m]
  else
    priKeys.filterMap (fun key => e.construct msgType payloadForSign [key])

/-- `broadcastConsensusP2pMessages` (validator.go:360-375): sends each message
to the shard group unless in `Listening` mode; a send failure returns the
error immediately.  Result: (messages actually sent, success flag). -/
def broadcastConsensusP2pMessages (e : Env) (mode : Mode) :
    List NetMsg → List NetMsg × Bool
  | [] => ([], true)
  | m :: rest =>
    if mode = Mode.Listening then broadcastConsensusP2pMessages e mode rest
    else if e.sendOk m then
      let r := broadcastConsensusP2pMessages e mode rest
      (m :: r.1, r.2)
    else ([], false)

/-- `prepare` (validator.go:63-77): construct PREPARE messages for the held
committee keys, broadcast them, switch phase to `Prepare`.  (`switchPhase` is
outside `src/`; per the spec it advances the phase to the desired one.) -/
def prepare (e : Env) (w : World) : World :=
  let priKeys := getPriKeysInCommittee e w.state
  let p2pMsgs := constructP2pMessages e w.state.aggregateSig MessageType.PREPARE [] priKeys
  let delivered := (broadcastConsensusP2pMessages e w.state.mode p2pMsgs).1
  { w with
    sent := w.sent ++ delivered
    state := { w.state with phase := FBFTPhase.Prepare } }

/-- `sendCommitMessages` (validator.go:80-97). -/
def sendCommitMessages (e : Env) (w : World) (blockObj : Block) : World :=
  let priKeys := getPriKeysInCommittee e w.state
  let commitPayload := e.constructCommitPayload blockObj
  let p2pMsgs := constructP2pMessages e w.state.aggregateSig MessageType.COMMIT commitPayload priKeys
  let delivered := (broadcastConsensusP2pMessages e w.state.mode p2pMsgs).1
  { w with sent := w.sent ++ delivered }

/-- `onAnnounce` (validator.go:19-61).  The parse-error branch of the Go code
logs `recvMsg.BlockNum` even though `ParseFBFTMessage` returned an error —
modelled from the spec's parser contract, an errored parse carries no message
(the Go pointer is nil), so that branch dereferences nil and panics; the
crash is the `none` result. -/
def onAnnounce (e : Env) (w : World) (msg : RawMsg) : Option World :=
  match e.parseFBFT msg with
  | none => none
  | some recvMsg =>
    if ¬ e.onAnnounceSanityChecks recvMsg then some w
    else
      let w1 := addMessage w recvMsg
      let w2 := { w1 with state := { w1.state with blockHash := recvMsg.blockHash } }
      if w2.state.mode = Mode.ViewChanging then some w2
      else if ¬ e.checkViewID w2.state recvMsg then some w2
      else some (prepare e w2)

/-- `onPrepared` after the block-number gate (validator.go:122-222). -/
def onPreparedTail (e : Env) (w : World) (recvMsg : FBFTMessage) : World :=
  match readSignatureBitmapPayload e recvMsg.payload 0 with
  | none => w
  | some (aggSig, mask) =>
    if ¬ e.isQuorumAchievedByMask mask then w
    else if ¬ e.verifyHash aggSig mask recvMsg.blockHash then w
    else
      match e.decodeBlock recvMsg.block with
      | none => w
      | some blockObj =>
        if ¬ e.onPreparedSanityChecks blockObj recvMsg then w
        else if ¬ (w.state.mode = Mode.Normal) then w
        else
          match e.blockVerifier with
          | none => w
          | some verifier =>
            if ¬ verifier blockObj then w
            else
              let w1 := { w with
                verified := w.verified ++ [blockObj.hash]
                logBlocks := w.logBlocks ++ [blockObj]
                state := { w.state with block := recvMsg.block } }
              let recvMsg2 := { recvMsg with block := [] }
              let w2 := addMessage w1 recvMsg2
              if ¬ e.checkViewID w2.state recvMsg2 then w2
              else if recvMsg2.blockNum > w2.state.blockNum then w2
              else
                let st1 := { w2.state with
                  aggregatedPrepareSig := some aggSig
                  prepareBitmap := some mask }
                let st2 := if st1.blockHash = emptyHash
                           then { st1 with blockHash := recvMsg.blockHash } else st1
                let w3 := sendCommitMessages e { w2 with state := st2 } blockObj
                { w3 with state := { w3.state with phase := FBFTPhase.Commit } }

/-- `onPrepared` (validator.go:101-222). -/
def onPrepared (e : Env) (w : World) (msg : RawMsg) : World :=
  match e.parseFBFT msg with
  | none => w
  | some recvMsg =>
    if recvMsg.blockNum < w.state.blockNum then w
    else
      onPreparedTail e
        (if recvMsg.blockNum > w.state.blockNum then spinUpW w else w) recvMsg

/-- Go `uint64` subtraction by one: `n - 1` with wraparound. -/
def wrapSub1 (n : Nat) : Nat := (n + (2 ^ 64 - 1)) % 2 ^ 64

/-- The stale gate of `onCommitted` (validator.go:232):
`recvMsg.BlockNum < consensus.blockNum-1` in Go `uint64` arithmetic. -/
def committedStale (msgBlockNum stateBlockNum : Nat) : Bool :=
  decide (msgBlockNum < wrapSub1 stateBlockNum)

/-- The merge-with-existing-signature step of `onCommitted`
(validator.go:283-293).  Returns the updated store and the mask object after
the in-place `SetMask` mutation (the same object `consensus.commitBitmap`
points to). -/
def mergeCommitSig (store : List (Nat × List Byte)) (bn : Nat) (payload : List Byte)
    (mask : Mask) : List (Nat × List Byte) × Mask :=
  match readCommitSig store bn with
  | some commitSigBitmap =>
    if commitSigBitmap.length = payload.length then
      let newCount := mask.CountEnabled
      let mask2 := mask.SetMask (commitSigBitmap.drop blsSignatureSizeInBytes)
      let curCount := mask2.CountEnabled
      if newCount > curCount then (writeCommitSig store bn payload, mask2)
      else (store, mask2)
    else (writeCommitSig store bn payload, mask)
  | none => (writeCommitSig store bn payload, mask)

/-- The tail of `onCommitted` (validator.go:295-313): `tryCatchup` (external,
modelled as a state transformer per the spec's step 8), the out-of-sync and
view-changing early exits, and the timer bookkeeping (stop bootstrap if
active, start the consensus timer). -/
def finishCommitted (e : Env) (w : World) (recvMsg : FBFTMessage) : World :=
  let st := e.tryCatchup w.state
  if recvMsg.blockNum > st.blockNum then { w with state := st }
  else if st.mode = Mode.ViewChanging then { w with state := st }
  else { w with state := { st with timeoutBootstrap := false, timeoutConsensus := true } }

/-- `onCommitted` once every check has passed (validator.go:272-313): record
the message, store the aggregate signature and the mask (the mask is stored
first and then mutated in place by the merge's `SetMask`, so `commitBitmap`
ends up holding the merge's mask object), run the merge policy, then the
tail. -/
def onCommittedVerified (e : Env) (w : World) (recvMsg : FBFTMessage) (aggSig : Sig)
    (mask : Mask) (blockObj : Block) : World :=
  let w1 := addMessage w recvMsg
  let mr := mergeCommitSig w1.store blockObj.numberU64 recvMsg.payload mask
  let st := { w1.state with aggregatedCommitSig := some aggSig, commitBitmap := some mr.2 }
  finishCommitted e { w1 with state := st, store := mr.1 } recvMsg

/-- `onCommitted` after the block-number gate (validator.go:243-313). -/
def onCommittedTail (e : Env) (w1 : World) (recvMsg : FBFTMessage) : World :=
  match readSignatureBitmapPayload e recvMsg.payload 0 with
  | none => w1
  | some (aggSig, mask) =>
    if ¬ e.isQuorumAchievedByMask mask then w1
    else
      match getBlockByHash w1.logBlocks recvMsg.blockHash with
      | none => w1
      | some blockObj =>
        if ¬ e.verifyHash aggSig mask (e.constructCommitPayload blockObj) then w1
        else onCommittedVerified e w1 recvMsg aggSig mask blockObj

/-- `onCommitted` (validator.go:224-313). -/
def onCommitted (e : Env) (w : World) (msg : RawMsg) : World :=
  match e.parseFBFT msg with
  | none => w
  | some recvMsg =>
    if committedStale recvMsg.blockNum w.state.blockNum then w
    else
      onCommittedTail e
        (if recvMsg.blockNum > w.state.blockNum then spinUpW w else w) recvMsg

/-! ### Concrete fixtures (used by the witness theorems) -/

def tSig : List Byte := List.replicate 96 0

def tPayload0 : List Byte := tSig ++ [0]

def tPayload1 : List Byte := tSig ++ [1]

def tMask0 : Mask := { publicsCount := 1, bitmap := [0] }

def tMask1 : Mask := { publicsCount := 1, bitmap := [1] }

def tHashA : Hash := List.replicate 32 1

def tBlock : Block := { numberU64 := 5, epoch := 1, headerViewID := 1, hash := tHashA }

def tMsg1 : FBFTMessage :=
  { viewID := 1, blockNum := 5, blockHash := tHashA, payload := tPayload0, block := [7] }

def tMsg2 : FBFTMessage :=
  { viewID := 1, blockNum := 5, blockHash := tHashA, payload := tPayload1, block := [7] }

def tMsg3 : FBFTMessage :=
  { viewID := 1, blockNum := 3, blockHash := tHashA, payload := tPayload1, block := [7] }

def tMsg6 : FBFTMessage :=
  { viewID := 1, blockNum := 7, blockHash := tHashA, payload := tPayload1, block := [7] }

def tState : ConsensusState :=
  { blockNum := 5
    blockHash := emptyHash
    phase := FBFTPhase.Announce
    mode := Mode.Normal
    aggregatedPrepareSig := none
    prepareBitmap := none
    aggregatedCommitSig := none
    commitBitmap := none
    block := []
    syncPending := false
    timeoutConsensus := false
    timeoutViewChange := false
    timeoutBootstrap := true
    aggregateSig := false
    priKey := [1, 2] }

def tEnv : Env :=
  { parseFBFT := fun rm =>
      if rm = 1 then some tMsg1
      else if rm = 2 then some tMsg2
      else if rm = 3 then some tMsg3
      else if rm = 6 then some tMsg6
      else none
    onAnnounceSanityChecks := fun _ => true
    checkViewID := fun _ _ => true
    publicsCount := 1
    sigDeserializeOk := fun _ => true
    isQuorumAchievedByMask := fun _ => true
    verifyHash := fun _ _ _ => true
    decodeBlock := fun _ => some tBlock
    onPreparedSanityChecks := fun _ _ => true
    blockVerifier := some fun _ => true
    isValidatorInCommittee := fun _ => true
    construct := fun _ _ ks => ks.head?
    sendOk := fun _ => true
    constructCommitPayload := fun _ => [9]
    tryCatchup := fun st => st }

def tEnvQ : Env := { tEnv with isQuorumAchievedByMask := fun _ => false }

def tWorld : World :=
  { state := tState
    logMsgs := []
    logBlocks := [tBlock]
    verified := []
    store := []
    sent := []
    spinUpCalls := 0 }

def tWorldVC : World := { tWorld with state := { tState with mode := Mode.ViewChanging } }

def tWorld0 : World := { tWorld with state := { tState with blockNum := 0 } }

def tWorld8 : World := { tWorld with store := [(5, tPayload0)] }

def tWorld10 : World := { tWorld with store := [(5, tSig)] }

/-! ### Basic facts about the embedded operations -/

/-- `spinUpStateSync` never touches the consensus bookkeeping fields other
than the mode, the timers and the channel slot. -/
theorem spinUpStateSync_preserve (st : ConsensusState) :
    (spinUpStateSync st).blockNum = st.blockNum ∧
    (spinUpStateSync st).blockHash = st.blockHash ∧
    (spinUpStateSync st).phase = st.phase ∧
    (spinUpStateSync st).aggregatedPrepareSig = st.aggregatedPrepareSig ∧
    (spinUpStateSync st).prepareBitmap = st.prepareBitmap := by
  unfold spinUpStateSync
  split <;> simp

/-- A successful payload extraction determines the mask: its committee size is
the decider's, its bitmap is the payload with the signature prefix removed,
and the payload length is signature size plus bitmap length. -/
theorem readSignatureBitmapPayload_spec (e : Env) (p : List Byte) (s : Sig) (m : Mask)
    (h : readSignatureBitmapPayload e p 0 = some (s, m)) :
    m = { publicsCount := e.publicsCount, bitmap := p.drop blsSignatureSizeInBytes } ∧
    p.length = blsSignatureSizeInBytes + maskByteLen e.publicsCount := by
  unfold readSignatureBitmapPayload at h
  split at h
  · exact absurd h (by simp)
  · split at h
    · rename_i hshort hc
      simp only [Option.some.injEq, Prod.mk.injEq] at h
      obtain ⟨hs2, hm⟩ := h
      subst hm
      refine ⟨by simp, ?_⟩
      have hd : (p.drop (0 + blsSignatureSizeInBytes)).length
          = p.length - (0 + blsSignatureSizeInBytes) := List.length_drop _ _
      have hb := hc.2
      omega
    · exact absurd h (by simp)

/-- `SetMask` with a byte string of the right length is the plain overwrite. -/
theorem setMask_of_length (m : Mask) (b : List Byte) (h : b.length = m.bitmap.length) :
    m.SetMask b = { m with bitmap := b } := by
  unfold Mask.SetMask
  rw [if_pos h]

/-- Reading back a just-written commit signature. -/
theorem readCommitSig_write (store : List (Nat × List Byte)) (bn : Nat) (p : List Byte) :
    readCommitSig (writeCommitSig store bn p) bn = some p := by
  unfold writeCommitSig readCommitSig
  rw [if_pos rfl]

/-- With no previously persisted signature the merge writes unconditionally. -/
theorem mergeCommitSig_none (store : List (Nat × List Byte)) (bn : Nat) (p : List Byte)
    (mask : Mask) (h : readCommitSig store bn = none) :
    mergeCommitSig store bn p mask = (writeCommitSig store bn p, mask) := by
  unfold mergeCommitSig
  rw [h]

/-- With a previously persisted signature of equal byte length, the merge
overwrites the mask with the old bitmap and persists the new payload exactly
when the new enabled-bit count is strictly larger. -/
theorem mergeCommitSig_some (store : List (Nat × List Byte)) (bn : Nat) (p : List Byte)
    (mask : Mask) (stored : List Byte) (h : readCommitSig store bn = some stored)
    (hlen : stored.length = p.length) :
    mergeCommitSig store bn p mask =
      if mask.CountEnabled > (mask.SetMask (stored.drop blsSignatureSizeInBytes)).CountEnabled
      then (writeCommitSig store bn p, mask.SetMask (stored.drop blsSignatureSizeInBytes))
      else (store, mask.SetMask (stored.drop blsSignatureSizeInBytes)) := by
  unfold mergeCommitSig
  rw [h]
  simp only [hlen, if_true]

/-- With a previously persisted signature of a different byte length, the
merge writes the new payload unconditionally. -/
theorem mergeCommitSig_some_ne (store : List (Nat × List Byte)) (bn : Nat) (p : List Byte)
    (mask : Mask) (stored : List Byte) (h : readCommitSig store bn = some stored)
    (hlen : stored.length ≠ p.length) :
    mergeCommitSig store bn p mask = (writeCommitSig store bn p, mask) := by
  unfold mergeCommitSig
  rw [h]
  simp only [hlen, if_false]

/-- The tail of `onCommitted` only mutates the consensus state. -/
theorem finishCommitted_store (e : Env) (w : World) (r : FBFTMessage) :
    (finishCommitted e w r).store = w.store := by
  unfold finishCommitted
  dsimp only
  split
  · rfl
  · split <;> rfl

theorem finishCommitted_logBlocks (e : Env) (w : World) (r : FBFTMessage) :
    (finishCommitted e w r).logBlocks = w.logBlocks := by
  unfold finishCommitted
  dsimp only
  split
  · rfl
  · split <;> rfl

/-- If the external catch-up preserves the commit bitmap, so does the tail of
`onCommitted`. -/
theorem finishCommitted_commitBitmap (e : Env) (w : World) (r : FBFTMessage)
    (htc : ∀ st, (e.tryCatchup st).commitBitmap = st.commitBitmap) :
    (finishCommitted e w r).state.commitBitmap = w.state.commitBitmap := by
  unfold finishCommitted
  dsimp only
  split
  · exact htc _
  · split
    · exact htc _
    · exact htc _

/-- The commit-signature store after the verified part of `onCommitted` is
exactly the outcome of the merge policy. -/
theorem onCommittedVerified_store (e : Env) (w : World) (r : FBFTMessage) (s : Sig)
    (m : Mask) (b : Block) :
    (onCommittedVerified e w r s m b).store
      = (mergeCommitSig w.store b.numberU64 r.payload m).1 := by
  unfold onCommittedVerified
  rw [finishCommitted_store]
  rfl

theorem onCommittedVerified_logBlocks (e : Env) (w : World) (r : FBFTMessage) (s : Sig)
    (m : Mask) (b : Block) :
    (onCommittedVerified e w r s m b).logBlocks = w.logBlocks := by
  unfold onCommittedVerified
  rw [finishCommitted_logBlocks]
  rfl

/-- The commit bitmap after the verified part of `onCommitted` is the merge's
mask object (the one `SetMask` mutated), provided catch-up preserves it. -/
theorem onCommittedVerified_commitBitmap (e : Env) (w : World) (r : FBFTMessage) (s : Sig)
    (m : Mask) (b : Block)
    (htc : ∀ st, (e.tryCatchup st).commitBitmap = st.commitBitmap) :
    (onCommittedVerified e w r s m b).state.commitBitmap
      = some (mergeCommitSig w.store b.numberU64 r.payload m).2 := by
  unfold onCommittedVerified
  rw [finishCommitted_commitBitmap e _ _ htc]
  rfl

/-- Control-flow lemma: when the payload extraction, the quorum check, the
block lookup and the signature verification all pass, the gate-passed part of
`onCommitted` is its verified part. -/
theorem onCommittedTail_run (e : Env) (w1 : World) (r : FBFTMessage) (s : Sig)
    (m : Mask) (b : Block)
    (hr : readSignatureBitmapPayload e r.payload 0 = some (s, m))
    (hq : e.isQuorumAchievedByMask m = true)
    (hb : getBlockByHash w1.logBlocks r.blockHash = some b)
    (hv : e.verifyHash s m (e.constructCommitPayload b) = true) :
    onCommittedTail e w1 r = onCommittedVerified e w1 r s m b := by
  unfold onCommittedTail
  rw [hr, hb]
  simp only [hq, hv, not_true, if_false]

/-- The gate-passed part of `onCommitted` never changes the block log. -/
theorem onCommittedTail_logBlocks (e : Env) (w1 : World) (r : FBFTMessage) :
    (onCommittedTail e w1 r).logBlocks = w1.logBlocks := by
  unfold onCommittedTail
  split
  · rfl
  · split
    · rfl
    · split
      · rfl
      · split
        · rfl
        · rw [onCommittedVerified_logBlocks]

/-- Control-flow lemma: when every check of `onCommitted` passes, the handler
is the verified part applied after the possible resync trigger. -/
theorem onCommitted_run (e : Env) (w : World) (msg : RawMsg) (r : FBFTMessage) (s : Sig)
    (m : Mask) (b : Block)
    (hp : e.parseFBFT msg = some r)
    (hg : committedStale r.blockNum w.state.blockNum = false)
    (hr : readSignatureBitmapPayload e r.payload 0 = some (s, m))
    (hq : e.isQuorumAchievedByMask m = true)
    (hb : getBlockByHash w.logBlocks r.blockHash = some b)
    (hv : e.verifyHash s m (e.constructCommitPayload b) = true) :
    onCommitted e w msg =
      onCommittedVerified e (if r.blockNum > w.state.blockNum then spinUpW w else w)
        r s m b := by
  have hb2 : getBlockByHash
      (if r.blockNum > w.state.blockNum then spinUpW w else w).logBlocks r.blockHash
      = some b := by
    by_cases hgt : r.blockNum > w.state.blockNum
    · rw [if_pos hgt]; exact hb
    · rw [if_neg hgt]; exact hb
  unfold onCommitted
  rw [hp]
  simp only [hg, Bool.false_eq_true, if_false]
  exact onCommittedTail_run e _ r s m b hr hq hb2 hv

/-- `onCommitted` never adds or removes blocks from the FBFT log. -/
theorem onCommitted_logBlocks (e : Env) (w : World) (msg : RawMsg) :
    (onCommitted e w msg).logBlocks = w.logBlocks := by
  unfold onCommitted
  split
  · rfl
  · split
    · rfl
    · rw [onCommittedTail_logBlocks]
      split <;> rfl

/-! ### Claim theorems -/

/-- Wrapped decrement agrees with `Nat` decrement on `1 ≤ n < 2 ^ 64`. -/
theorem wrapSub1_eq (n : Nat) (h1 : 1 ≤ n) (h64 : n < 2 ^ 64) : wrapSub1 n = n - 1 := by
  unfold wrapSub1
  have h2 : (2 : Nat) ^ 64 = 18446744073709551616 := by norm_num
  rw [h2] at h64 ⊢
  omega

/-- Claim C3: `onCommitted` tolerates exactly one block of lag.  With current
block number `B` (with `1 ≤ B < 2^64`, so the Go `uint64` decrement does not
wrap), the stale gate fires exactly when the message's block number is
strictly below `B - 1`; a stale message leaves the whole world unchanged
(rejected before any signature verification or state change); a message at
exactly `B - 1` passes the gate, so processing continues. -/
theorem c3_committed_pipelining_gate (e : Env) (w : World) (msg : RawMsg) (r : FBFTMessage)
    (hp : e.parseFBFT msg = some r)
    (h1 : 1 ≤ w.state.blockNum) (h64 : w.state.blockNum < 2 ^ 64) :
    (committedStale r.blockNum w.state.blockNum = true
        ↔ r.blockNum < w.state.blockNum - 1)
    ∧ (r.blockNum < w.state.blockNum - 1 → onCommitted e w msg = w)
    ∧ (r.blockNum = w.state.blockNum - 1
        → committedStale r.blockNum w.state.blockNum = false) := by
  have hiff : committedStale r.blockNum w.state.blockNum = true
      ↔ r.blockNum < w.state.blockNum - 1 := by
    unfold committedStale
    rw [wrapSub1_eq _ h1 h64]
    simp
  refine ⟨hiff, ?_, ?_⟩
  · intro hlt
    unfold onCommitted
    simp only [hp]
    rw [if_pos (hiff.mpr hlt)]
  · intro heq
    cases hb : committedStale r.blockNum w.state.blockNum with
    | false => rfl
    | true => exact absurd (hiff.mp hb) (by omega)

theorem c3_committed_pipelining_gate_witness :
    (committedStale tMsg3.blockNum tWorld.state.blockNum = true
        ↔ tMsg3.blockNum < tWorld.state.blockNum - 1)
    ∧ (tMsg3.blockNum < tWorld.state.blockNum - 1 → onCommitted tEnv tWorld 3 = tWorld)
    ∧ (tMsg3.blockNum = tWorld.state.blockNum - 1
        → committedStale tMsg3.blockNum tWorld.state.blockNum = false) :=
  c3_committed_pipelining_gate tEnv tWorld 3 tMsg3 rfl (by decide) (by decide)

/-- Claim C9: the stale gate computes `state.blockNum - 1` in wrapping
`uint64` arithmetic, so with `blockNum = 0` the comparison is against
`2^64 - 1` and every committed message with a block number below `2^64 - 1`
is rejected as stale (world unchanged). -/
theorem c9_blocknum_zero_wraps (e : Env) (w : World) (msg : RawMsg) (r : FBFTMessage)
    (hp : e.parseFBFT msg = some r) (h0 : w.state.blockNum = 0) :
    wrapSub1 0 = 2 ^ 64 - 1
    ∧ (committedStale r.blockNum w.state.blockNum = true ↔ r.blockNum < 2 ^ 64 - 1)
    ∧ (r.blockNum < 2 ^ 64 - 1 → onCommitted e w msg = w) := by
  have hw : wrapSub1 0 = 2 ^ 64 - 1 := by
    unfold wrapSub1
    norm_num
  have hiff : committedStale r.blockNum w.state.blockNum = true
      ↔ r.blockNum < 2 ^ 64 - 1 := by
    unfold committedStale
    rw [h0, hw]
    simp
  refine ⟨hw, hiff, fun hlt => ?_⟩
  unfold onCommitted
  simp only [hp]
  rw [if_pos (hiff.mpr hlt)]

theorem c9_blocknum_zero_wraps_witness :
    wrapSub1 0 = 2 ^ 64 - 1
    ∧ (committedStale tMsg1.blockNum tWorld0.state.blockNum = true
        ↔ tMsg1.blockNum < 2 ^ 64 - 1)
    ∧ (tMsg1.blockNum < 2 ^ 64 - 1 → onCommitted tEnv tWorld0 1 = tWorld0) :=
  c9_blocknum_zero_wraps tEnv tWorld0 1 tMsg1 rfl rfl

/-- Claim C5 (code bug): the claim says the parse-error branch of `onAnnounce`
logs and returns without dereferencing the invalid parse result.  The Go code
at validator.go:24 reads `recvMsg.BlockNum` inside that branch; since
`ParseFBFTMessage` carries no message on error (nil pointer), the branch
panics.  The crash is the `none` result: every unparseable message crashes
`onAnnounce` instead of being dropped cleanly. -/
theorem c5_announce_parse_error_crashes (e : Env) (w : World) (msg : RawMsg)
    (hp : e.parseFBFT msg = none) :
    onAnnounce e w msg = none := by
  unfold onAnnounce
  rw [hp]

theorem c5_announce_parse_error_crashes_witness : onAnnounce tEnv tWorld 9 = none :=
  c5_announce_parse_error_crashes tEnv tWorld 9 rfl

/-- Claim C7: with aggregate signing enabled, `constructP2pMessages` yields at
most one message — none exactly when the joint construction fails, the single
constructed message otherwise; with aggregate signing disabled it yields one
message per key whose individual construction succeeds (failed keys are
skipped), so the count is the number of succeeding keys, between zero and the
number of keys. -/
theorem c7_construct_p2p_messages (e : Env) (t : MessageType) (p : List Byte)
    (keys : List Key) :
    ((constructP2pMessages e true t p keys).length ≤ 1
      ∧ (e.construct t p keys = none → constructP2pMessages e true t p keys = [])
      ∧ (∀ nm, e.construct t p keys = some nm
          → constructP2pMessages e true t p keys = [nm]))
    ∧ ((constructP2pMessages e false t p keys).length
          = keys.countP (fun k => (e.construct t p [k]).isSome)
      ∧ (constructP2pMessages e false t p keys).length ≤ keys.length) := by
  refine ⟨⟨?_, ?_, ?_⟩, ?_, ?_⟩
  · unfold constructP2pMessages
    rw [if_pos rfl]
    cases e.construct t p keys <;> simp
  · intro h
    unfold constructP2pMessages
    rw [if_pos rfl, h]
  · intro nm h
    unfold constructP2pMessages
    rw [if_pos rfl, h]
  · unfold constructP2pMessages
    rw [if_neg (by simp)]
    induction keys with
    | nil => rfl
    | cons k ks ih =>
      cases h : e.construct t p [k] <;>
        simp [List.filterMap_cons, List.countP_cons, h, ih]
  · unfold constructP2pMessages
    rw [if_neg (by simp)]
    exact List.length_filterMap_le _ _

theorem c7_construct_p2p_messages_witness :
    (constructP2pMessages tEnv true MessageType.PREPARE [] [1, 2]).length ≤ 1
    ∧ (constructP2pMessages tEnv false MessageType.PREPARE [] [1, 2]).length
        ≤ ([1, 2] : List Key).length :=
  ⟨(c7_construct_p2p_messages tEnv MessageType.PREPARE [] [1, 2]).1.1,
   (c7_construct_p2p_messages tEnv MessageType.PREPARE [] [1, 2]).2.2⟩

/-- The gate-passed part of `onPrepared` never calls the resync trigger. -/
theorem onPreparedTail_spinUpCalls (e : Env) (w1 : World) (r : FBFTMessage) :
    (onPreparedTail e w1 r).spinUpCalls = w1.spinUpCalls := by
  unfold onPreparedTail
  split
  · rfl
  · split
    · rfl
    · split
      · rfl
      · split
        · rfl
        · split
          · rfl
          · split
            · rfl
            · split
              · rfl
              · split
                · rfl
                · dsimp only
                  split
                  · rfl
                  · split <;> rfl

/-- Claim C2: a prepared message whose bitmap fails the quorum check leaves
the consensus fields untouched — blockHash, phase, aggregated prepare
signature and prepare bitmap are unchanged — and no COMMIT message is sent.
(The resync trigger earlier in the handler may flip mode/timers when the
message is ahead of the node; it touches none of the listed fields.) -/
theorem c2_prepared_quorum_fail_no_mutation (e : Env) (w : World) (msg : RawMsg)
    (r : FBFTMessage) (s : Sig) (m : Mask)
    (hp : e.parseFBFT msg = some r)
    (hr : readSignatureBitmapPayload e r.payload 0 = some (s, m))
    (hq : e.isQuorumAchievedByMask m = false) :
    (onPrepared e w msg).sent = w.sent
    ∧ (onPrepared e w msg).state.blockHash = w.state.blockHash
    ∧ (onPrepared e w msg).state.phase = w.state.phase
    ∧ (onPrepared e w msg).state.aggregatedPrepareSig = w.state.aggregatedPrepareSig
    ∧ (onPrepared e w msg).state.prepareBitmap = w.state.prepareBitmap := by
  have htail : ∀ w1 : World, onPreparedTail e w1 r = w1 := by
    intro w1
    unfold onPreparedTail
    simp only [hr]
    simp [hq]
  unfold onPrepared
  simp only [hp]
  split
  · exact ⟨rfl, rfl, rfl, rfl, rfl⟩
  · rw [htail]
    split
    · have h := spinUpStateSync_preserve w.state
      exact ⟨rfl, h.2.1, h.2.2.1, h.2.2.2.1, h.2.2.2.2⟩
    · exact ⟨rfl, rfl, rfl, rfl, rfl⟩

theorem c2_prepared_quorum_fail_no_mutation_witness :
    (onPrepared tEnvQ tWorld 2).sent = tWorld.sent
    ∧ (onPrepared tEnvQ tWorld 2).state.blockHash = tWorld.state.blockHash
    ∧ (onPrepared tEnvQ tWorld 2).state.phase = tWorld.state.phase
    ∧ (onPrepared tEnvQ tWorld 2).state.aggregatedPrepareSig
        = tWorld.state.aggregatedPrepareSig
    ∧ (onPrepared tEnvQ tWorld 2).state.prepareBitmap = tWorld.state.prepareBitmap :=
  c2_prepared_quorum_fail_no_mutation tEnvQ tWorld 2 tMsg2 tSig tMask1 rfl rfl rfl

/-- Claim C6: a prepared message strictly ahead of the node triggers the
resync signal exactly once (the call counter rises by one and nothing else in
the handler calls it), and `spinUpStateSync` (a) transitions the mode to
Syncing and stops all round timers exactly when the non-blocking send
succeeds — the single-slot channel is free, (b) is a pure no-op on the state
when the sync signal is already pending, hence (c) repeated triggers are
idempotent. -/
theorem c6_prepared_resync_trigger (e : Env) (w : World) (msg : RawMsg) (r : FBFTMessage)
    (hp : e.parseFBFT msg = some r)
    (hgt : w.state.blockNum < r.blockNum) :
    (onPrepared e w msg).spinUpCalls = w.spinUpCalls + 1
    ∧ (∀ st : ConsensusState, st.syncPending = false →
        spinUpStateSync st =
          { st with
            syncPending := true
            mode := Mode.Syncing
            timeoutConsensus := false
            timeoutViewChange := false
            timeoutBootstrap := false })
    ∧ (∀ st : ConsensusState, st.syncPending = true → spinUpStateSync st = st)
    ∧ (∀ st : ConsensusState, spinUpStateSync (spinUpStateSync st) = spinUpStateSync st) := by
  have hpend : ∀ st : ConsensusState, st.syncPending = true → spinUpStateSync st = st := by
    intro st h
    unfold spinUpStateSync
    rw [h]
    simp
  have hfree : ∀ st : ConsensusState, st.syncPending = false →
      spinUpStateSync st =
        { st with
          syncPending := true
          mode := Mode.Syncing
          timeoutConsensus := false
          timeoutViewChange := false
          timeoutBootstrap := false } := by
    intro st h
    unfold spinUpStateSync
    rw [h]
    simp
  have hidem : ∀ st : ConsensusState,
      spinUpStateSync (spinUpStateSync st) = spinUpStateSync st := by
    intro st
    by_cases h : st.syncPending = true
    · rw [hpend st h, hpend st h]
    · have h2 : st.syncPending = false := by
        cases hb : st.syncPending
        · rfl
        · exact absurd hb h
      rw [hfree st h2]
      exact hpend _ rfl
  refine ⟨?_, hfree, hpend, hidem⟩
  unfold onPrepared
  simp only [hp]
  rw [if_neg (by omega : ¬ r.blockNum < w.state.blockNum)]
  rw [if_pos (by omega : r.blockNum > w.state.blockNum)]
  rw [onPreparedTail_spinUpCalls]
  rfl

theorem c6_prepared_resync_trigger_witness :
    (onPrepared tEnv tWorld 6).spinUpCalls = tWorld.spinUpCalls + 1 :=
  (c6_prepared_resync_trigger tEnv tWorld 6 tMsg6 rfl (by decide)).1

/-- Claim C8: `onCommitted` stores the received mask object into
`consensus.commitBitmap` and the merge's `SetMask` then mutates that same
object in place: whenever a previously persisted commit signature of equal
payload length exists, the commit bitmap ends up holding the previously
persisted bitmap's bytes rather than the received message's bitmap (the
payload's signature-stripped suffix, second conjunct), for every such
message, regardless of which payload is persisted.  Stated under a catch-up
oracle that preserves the commit bitmap, so the field set by the merge is
observable after the handler returns. -/
theorem c8_commitbitmap_aliasing (e : Env) (w : World) (msg : RawMsg) (r : FBFTMessage)
    (s : Sig) (m : Mask) (b : Block) (stored : List Byte)
    (hp : e.parseFBFT msg = some r)
    (hg : committedStale r.blockNum w.state.blockNum = false)
    (hr : readSignatureBitmapPayload e r.payload 0 = some (s, m))
    (hq : e.isQuorumAchievedByMask m = true)
    (hb : getBlockByHash w.logBlocks r.blockHash = some b)
    (hv : e.verifyHash s m (e.constructCommitPayload b) = true)
    (hst : readCommitSig w.store b.numberU64 = some stored)
    (hlen : stored.length = r.payload.length)
    (htc : ∀ st, (e.tryCatchup st).commitBitmap = st.commitBitmap) :
    (onCommitted e w msg).state.commitBitmap
      = some { publicsCount := e.publicsCount
               bitmap := stored.drop blsSignatureSizeInBytes }
    ∧ m.bitmap = r.payload.drop blsSignatureSizeInBytes := by
  obtain ⟨hm, hplen⟩ := readSignatureBitmapPayload_spec e r.payload s m hr
  subst hm
  refine ⟨?_, rfl⟩
  rw [onCommitted_run e w msg r s _ b hp hg hr hq hb hv]
  rw [onCommittedVerified_commitBitmap _ _ _ _ _ _ htc]
  have hwa : (if r.blockNum > w.state.blockNum then spinUpW w else w).store = w.store := by
    split <;> rfl
  rw [hwa]
  rw [mergeCommitSig_some w.store b.numberU64 r.payload _ stored hst hlen]
  have hlen2 : (stored.drop blsSignatureSizeInBytes).length
      = (r.payload.drop blsSignatureSizeInBytes).length := by
    rw [List.length_drop, List.length_drop, hlen]
  rw [setMask_of_length _ _ hlen2]
  split
  · rfl
  · rfl

theorem c8_commitbitmap_aliasing_witness :
    (onCommitted tEnv tWorld8 2).state.commitBitmap
      = some { publicsCount := tEnv.publicsCount
               bitmap := tPayload0.drop blsSignatureSizeInBytes }
    ∧ tMask1.bitmap = tMsg2.payload.drop blsSignatureSizeInBytes :=
  c8_commitbitmap_aliasing tEnv tWorld8 2 tMsg2 tSig tMask1 tBlock tPayload0
    rfl (by decide) rfl rfl rfl rfl rfl (by decide) (fun st => rfl)

/-- Claim C10: whenever `ReadCommitSig` errors (no stored entry) or the
stored blob's byte length differs from the received payload's, `onCommitted`
persists the received payload unconditionally — the length-mismatch branch
never keeps the existing record, whatever its signer count. -/
theorem c10_length_mismatch_overwrites (e : Env) (w : World) (msg : RawMsg)
    (r : FBFTMessage) (s : Sig) (m : Mask) (b : Block)
    (hp : e.parseFBFT msg = some r)
    (hg : committedStale r.blockNum w.state.blockNum = false)
    (hr : readSignatureBitmapPayload e r.payload 0 = some (s, m))
    (hq : e.isQuorumAchievedByMask m = true)
    (hb : getBlockByHash w.logBlocks r.blockHash = some b)
    (hv : e.verifyHash s m (e.constructCommitPayload b) = true)
    (hor : readCommitSig w.store b.numberU64 = none
        ∨ ∃ stored, readCommitSig w.store b.numberU64 = some stored
            ∧ stored.length ≠ r.payload.length) :
    readCommitSig (onCommitted e w msg).store b.numberU64 = some r.payload := by
  rw [onCommitted_run e w msg r s m b hp hg hr hq hb hv]
  rw [onCommittedVerified_store]
  have hwa : (if r.blockNum > w.state.blockNum then spinUpW w else w).store = w.store := by
    split <;> rfl
  rw [hwa]
  rcases hor with h | ⟨stored, h, hne⟩
  · rw [mergeCommitSig_none _ _ _ _ h]
    exact readCommitSig_write _ _ _
  · rw [mergeCommitSig_some_ne _ _ _ _ _ h hne]
    exact readCommitSig_write _ _ _

theorem c10_length_mismatch_overwrites_witness :
    readCommitSig (onCommitted tEnv tWorld10 2).store tBlock.numberU64 = some tMsg2.payload :=
  c10_length_mismatch_overwrites tEnv tWorld10 2 tMsg2 tSig tMask1 tBlock
    rfl (by decide) rfl rfl rfl rfl (Or.inr ⟨tSig, rfl, by decide⟩)

/-- Claim C4: a parsed announce message that passes the sanity checks is
always recorded in the FBFT log and the current blockHash is set; in
ViewChanging mode nothing is sent and the phase is untouched, while outside
ViewChanging mode with a passing view-ID check the constructed PREPARE
messages are handed to the broadcaster and the phase switches to Prepare. -/
theorem c4_announce_viewchanging_vs_normal (e : Env) (w : World) (msg : RawMsg)
    (r : FBFTMessage)
    (hp : e.parseFBFT msg = some r)
    (hs : e.onAnnounceSanityChecks r = true) :
    (w.state.mode = Mode.ViewChanging →
      ∃ w2, onAnnounce e w msg = some w2
        ∧ w2.logMsgs = w.logMsgs ++ [r]
        ∧ w2.state.blockHash = r.blockHash
        ∧ w2.sent = w.sent
        ∧ w2.state.phase = w.state.phase)
    ∧ (w.state.mode ≠ Mode.ViewChanging →
      e.checkViewID { w.state with blockHash := r.blockHash } r = true →
      ∃ w2, onAnnounce e w msg = some w2
        ∧ w2.logMsgs = w.logMsgs ++ [r]
        ∧ w2.state.blockHash = r.blockHash
        ∧ w2.state.phase = FBFTPhase.Prepare
        ∧ w2.sent = w.sent ++ (broadcastConsensusP2pMessages e w.state.mode
            (constructP2pMessages e w.state.aggregateSig MessageType.PREPARE []
              (getPriKeysInCommittee e w.state))).1) := by
  constructor
  · intro hvc
    refine ⟨{ addMessage w r with
              state := { (addMessage w r).state with blockHash := r.blockHash } },
            ?_, rfl, rfl, rfl, rfl⟩
    unfold onAnnounce
    simp only [hp, hs, not_true, Bool.not_true, if_false]
    have hVC : (addMessage w r).state.mode = Mode.ViewChanging := hvc
    rw [if_pos hVC]
  · intro hnvc hvid
    refine ⟨prepare e { addMessage w r with
              state := { (addMessage w r).state with blockHash := r.blockHash } },
            ?_, rfl, rfl, rfl, rfl⟩
    unfold onAnnounce
    simp only [hp, hs, not_true, Bool.not_true, if_false]
    have hNVC : ¬ (addMessage w r).state.mode = Mode.ViewChanging := hnvc
    rw [if_neg hNVC]
    have hvid2 : e.checkViewID
        { (addMessage w r).state with blockHash := r.blockHash } r = true := hvid
    rw [if_neg (by simp [hvid2])]

theorem c4_announce_viewchanging_vs_normal_witness :
    (tWorldVC.state.mode = Mode.ViewChanging →
      ∃ w2, onAnnounce tEnv tWorldVC 1 = some w2
        ∧ w2.logMsgs = tWorldVC.logMsgs ++ [tMsg1]
        ∧ w2.state.blockHash = tMsg1.blockHash
        ∧ w2.sent = tWorldVC.sent
        ∧ w2.state.phase = tWorldVC.state.phase)
    ∧ (tWorldVC.state.mode ≠ Mode.ViewChanging →
      tEnv.checkViewID { tWorldVC.state with blockHash := tMsg1.blockHash } tMsg1 = true →
      ∃ w2, onAnnounce tEnv tWorldVC 1 = some w2
        ∧ w2.logMsgs = tWorldVC.logMsgs ++ [tMsg1]
        ∧ w2.state.blockHash = tMsg1.blockHash
        ∧ w2.state.phase = FBFTPhase.Prepare
        ∧ w2.sent = tWorldVC.sent ++ (broadcastConsensusP2pMessages tEnv tWorldVC.state.mode
            (constructP2pMessages tEnv tWorldVC.state.aggregateSig MessageType.PREPARE []
              (getPriKeysInCommittee tEnv tWorldVC.state))).1) :=
  c4_announce_viewchanging_vs_normal tEnv tWorldVC 1 tMsg1 rfl rfl

/-- The merge policy never decreases the enabled-bit count of the persisted
bitmap (equal-length case): either the strictly larger new bitmap is written
or the old record is kept. -/
theorem mergeCommitSig_count_mono (store : List (Nat × List Byte)) (bn : Nat)
    (payload stored : List Byte) (mask : Mask)
    (h : readCommitSig store bn = some stored)
    (hlen : stored.length = payload.length)
    (hbm : mask.bitmap = payload.drop blsSignatureSizeInBytes) :
    Mask.CountEnabled
      { publicsCount := mask.publicsCount
        bitmap := ((readCommitSig (mergeCommitSig store bn payload mask).1 bn).getD []).drop
            blsSignatureSizeInBytes }
    ≥ Mask.CountEnabled
      { publicsCount := mask.publicsCount
        bitmap := stored.drop blsSignatureSizeInBytes } := by
  have hlen2 : (stored.drop blsSignatureSizeInBytes).length = mask.bitmap.length := by
    rw [hbm, List.length_drop, List.length_drop, hlen]
  rw [mergeCommitSig_some store bn payload mask stored h hlen]
  rw [setMask_of_length mask _ hlen2]
  split
  · rename_i hgt
    dsimp only
    rw [readCommitSig_write]
    simp only [Option.getD_some]
    have hmc : Mask.CountEnabled
        { publicsCount := mask.publicsCount
          bitmap := payload.drop blsSignatureSizeInBytes }
        = mask.CountEnabled := by
      rw [← hbm]
    rw [hmc]
    exact le_of_lt hgt
  · dsimp only
    rw [h]
    simp only [Option.getD_some]
    exact le_refl _

/-- Claim C1: commit-signature persistence is monotonic.  Two valid committed
messages for the same block whose payloads both parse (so their bitmaps have
equal byte length), with the second carrying strictly more enabled bits: after
`onCommitted` has processed both — in either arrival order — the persisted
payload is the second one; and (third conjunct) merging against an existing
equal-length record never decreases the persisted enabled-bit count, so the
persisted signer set never shrinks. -/
theorem c1_commit_persistence_monotonic (e : Env) (w : World) (m1 m2 : RawMsg)
    (r1 r2 : FBFTMessage) (s1 s2 : Sig) (k1 k2 : Mask) (b : Block)
    (hp1 : e.parseFBFT m1 = some r1) (hp2 : e.parseFBFT m2 = some r2)
    (hr1 : readSignatureBitmapPayload e r1.payload 0 = some (s1, k1))
    (hr2 : readSignatureBitmapPayload e r2.payload 0 = some (s2, k2))
    (hq1 : e.isQuorumAchievedByMask k1 = true)
    (hq2 : e.isQuorumAchievedByMask k2 = true)
    (hb1 : getBlockByHash w.logBlocks r1.blockHash = some b)
    (hb2 : getBlockByHash w.logBlocks r2.blockHash = some b)
    (hv1 : e.verifyHash s1 k1 (e.constructCommitPayload b) = true)
    (hv2 : e.verifyHash s2 k2 (e.constructCommitPayload b) = true)
    (hst : readCommitSig w.store b.numberU64 = none)
    (hg1 : committedStale r1.blockNum w.state.blockNum = false)
    (hg2 : committedStale r2.blockNum w.state.blockNum = false)
    (hg12 : committedStale r2.blockNum (onCommitted e w m1).state.blockNum = false)
    (hg21 : committedStale r1.blockNum (onCommitted e w m2).state.blockNum = false)
    (hcount : k1.CountEnabled < k2.CountEnabled) :
    readCommitSig (onCommitted e (onCommitted e w m1) m2).store b.numberU64
      = some r2.payload
    ∧ readCommitSig (onCommitted e (onCommitted e w m2) m1).store b.numberU64
      = some r2.payload
    ∧ (∀ (store : List (Nat × List Byte)) (bn : Nat) (payload stored : List Byte)
        (mask : Mask),
        readCommitSig store bn = some stored →
        stored.length = payload.length →
        mask.bitmap = payload.drop blsSignatureSizeInBytes →
        Mask.CountEnabled
          { publicsCount := mask.publicsCount
            bitmap := ((readCommitSig (mergeCommitSig store bn payload mask).1 bn).getD
                []).drop blsSignatureSizeInBytes }
        ≥ Mask.CountEnabled
          { publicsCount := mask.publicsCount
            bitmap := stored.drop blsSignatureSizeInBytes }) := by
  obtain ⟨hm1, hplen1⟩ := readSignatureBitmapPayload_spec e r1.payload s1 k1 hr1
  obtain ⟨hm2, hplen2⟩ := readSignatureBitmapPayload_spec e r2.payload s2 k2 hr2
  subst hm1
  subst hm2
  have hlen12 : r1.payload.length = r2.payload.length := by omega
  have hdlen12 : (r1.payload.drop blsSignatureSizeInBytes).length
      = (r2.payload.drop blsSignatureSizeInBytes).length := by
    rw [List.length_drop, List.length_drop, hlen12]
  have store_after : ∀ (wx : World) (mx : RawMsg) (rx : FBFTMessage) (sx : Sig) (kx : Mask),
      e.parseFBFT mx = some rx →
      committedStale rx.blockNum wx.state.blockNum = false →
      readSignatureBitmapPayload e rx.payload 0 = some (sx, kx) →
      e.isQuorumAchievedByMask kx = true →
      getBlockByHash wx.logBlocks rx.blockHash = some b →
      e.verifyHash sx kx (e.constructCommitPayload b) = true →
      (onCommitted e wx mx).store
        = (mergeCommitSig wx.store b.numberU64 rx.payload kx).1 := by
    intro wx mx rx sx kx h1 h2 h3 h4 h5 h6
    rw [onCommitted_run e wx mx rx sx kx b h1 h2 h3 h4 h5 h6]
    rw [onCommittedVerified_store]
    have hsp : (if rx.blockNum > wx.state.blockNum then spinUpW wx else wx).store
        = wx.store := by
      split <;> rfl
    rw [hsp]
  have hw1store : (onCommitted e w m1).store
      = writeCommitSig w.store b.numberU64 r1.payload := by
    rw [store_after w m1 r1 s1 _ hp1 hg1 hr1 hq1 hb1 hv1]
    rw [mergeCommitSig_none _ _ _ _ hst]
  have hw2store : (onCommitted e w m2).store
      = writeCommitSig w.store b.numberU64 r2.payload := by
    rw [store_after w m2 r2 s2 _ hp2 hg2 hr2 hq2 hb2 hv2]
    rw [mergeCommitSig_none _ _ _ _ hst]
  have hb2x : getBlockByHash (onCommitted e w m1).logBlocks r2.blockHash = some b := by
    rw [onCommitted_logBlocks]
    exact hb2
  have hb1x : getBlockByHash (onCommitted e w m2).logBlocks r1.blockHash = some b := by
    rw [onCommitted_logBlocks]
    exact hb1
  refine ⟨?_, ?_, ?_⟩
  · rw [store_after (onCommitted e w m1) m2 r2 s2 _ hp2 hg12 hr2 hq2 hb2x hv2]
    have hread1 : readCommitSig (onCommitted e w m1).store b.numberU64
        = some r1.payload := by
      rw [hw1store]
      exact readCommitSig_write _ _ _
    rw [mergeCommitSig_some _ _ _ _ _ hread1 hlen12]
    rw [setMask_of_length _ _ hdlen12]
    rw [if_pos (by exact hcount)]
    exact readCommitSig_write _ _ _
  · rw [store_after (onCommitted e w m2) m1 r1 s1 _ hp1 hg21 hr1 hq1 hb1x hv1]
    have hread2 : readCommitSig (onCommitted e w m2).store b.numberU64
        = some r2.payload := by
      rw [hw2store]
      exact readCommitSig_write _ _ _
    rw [mergeCommitSig_some _ _ _ _ _ hread2 hlen12.symm]
    rw [setMask_of_length _ _ hdlen12.symm]
    rw [if_neg (by simp only [gt_iff_lt, not_lt]; exact le_of_lt hcount)]
    rw [hw2store]
    exact readCommitSig_write _ _ _
  · intro store bn payload stored mask h hl hbm
    exact mergeCommitSig_count_mono store bn payload stored mask h hl hbm

theorem c1_commit_persistence_monotonic_witness :
    readCommitSig (onCommitted tEnv (onCommitted tEnv tWorld 1) 2).store tBlock.numberU64
      = some tMsg2.payload
    ∧ readCommitSig (onCommitted tEnv (onCommitted tEnv tWorld 2) 1).store tBlock.numberU64
      = some tMsg2.payload :=
  ⟨(c1_commit_persistence_monotonic tEnv tWorld 1 2 tMsg1 tMsg2 tSig tSig tMask0 tMask1
      tBlock rfl rfl rfl rfl rfl rfl rfl rfl rfl rfl rfl (by decide) (by decide)
      (by decide) (by decide) (by decide)).1,
   (c1_commit_persistence_monotonic tEnv tWorld 1 2 tMsg1 tMsg2 tSig tSig tMask0 tMask1
      tBlock rfl rfl rfl rfl rfl rfl rfl rfl rfl rfl rfl (by decide) (by decide)
      (by decide) (by decide) (by decide)).2.1⟩

end Harmony
